import Mathlib

/-!
Shallow embedding of the Clevo NS50MU fan controller (src/main.rs).

The controller talks to an embedded controller (EC) over two I/O ports and
runs an infinite control loop.  Pure state transitions of the loop are
embedded as Lean functions over a `CState` record; machine integers (u8,
u64) are embedded as `Nat` with explicit `% 2 ^ w` where the source's
arithmetic could overflow; the hardware environment (port reads) is
abstracted as explicit data (probe lists, a pending-byte buffer, a status
stream) threaded through the functions that poll it.
-/

/-- Embedded controller command port (src/main.rs line 2). -/
def EC_COMMAND_PORT : ℕ := 0x66

/-- Embedded controller data port (src/main.rs line 4). -/
def EC_DATA_PORT : ℕ := 0x62

/-- Command to get temperature (line 7). -/
def COMMAND_TEMP : ℕ := 0x9E

/-- Command to set speed (line 9). -/
def COMMAND_SPEED : ℕ := 0x99

/-- Id for fan (line 12). -/
def FAN_ID : ℕ := 0x01

/-- Min speed as percentage to run the fan (line 15). -/
def FAN_SPEED_MIN : ℕ := 30

/-- Max speed as percentage to run the fan (line 17). -/
def FAN_SPEED_MAX : ℕ := 100

/-- Minimum temperature from start to raise fan speed (line 20). -/
def MIN_TEMP : ℕ := 70

/-- Maximum temperature that starts raising fan speed even if temperature
is not raising (line 22). -/
def MAX_TEMP : ℕ := 85

/-- Wait time between loops in ms (line 25). -/
def REFRESH_RATE : ℕ := 250

/-- Wait this many milliseconds to change speed when temperature is
raising (line 28). -/
def REACTION_TIME_MS_RAISE : ℕ := 1000

/-- Wait this many milliseconds to change speed when temperature is
lowering or staying same (line 30). -/
def REACTION_TIME_MS_LOWER : ℕ := 2000

/-- Increment as percentage to raise fan speed (line 33). -/
def FAN_RAISE_INCREMENT : ℕ := 5

/-- Increment as percentage to lower fan speed (line 35). -/
def FAN_LOWER_INCREMENT : ℕ := 1

/-- How many milliseconds to wait for command flag (line 38). -/
def COMMAND_FLAG_MAX_WAIT_MS : ℕ := 1000

/-- Loops to wait before changing speed when raising
(`reaction_loops_raise`, line 279): `REACTION_TIME_MS_RAISE / REFRESH_RATE`. -/
def reaction_loops_raise : ℕ := REACTION_TIME_MS_RAISE / REFRESH_RATE

/-- Loops to wait before changing speed when lowering or staying the same
(`reaction_loops_lower`, line 281): `REACTION_TIME_MS_LOWER / REFRESH_RATE`. -/
def reaction_loops_lower : ℕ := REACTION_TIME_MS_LOWER / REFRESH_RATE

/-- Status flags of the EC command port (enum `Flag` in the source, lines 108-112; named `ECFlag` here because Mathlib already declares `Flag`). -/
inductive ECFlag where
  | OBF : ECFlag
  | IBF : ECFlag
deriving DecidableEq, Repr

/-- Flag as u8 value (`Flag::flag` in the source, lines 115-120). -/
def ECFlag.flag : ECFlag → ℕ
  | ECFlag.OBF => 0x1
  | ECFlag.IBF => 0x2

/-- Is flag on in given output? (`Flag::on` in the source, lines 123-126; `on` is a Lean keyword):
`output & flag == flag`. -/
def ECFlag.isOn (f : ECFlag) (output : ℕ) : Bool :=
  output &&& f.flag == f.flag

/-- Error `CommandFlagWaitTimedOutError` (lines 87-90): carries the flag
waited on and the desired on/off state. -/
structure CommandFlagWaitTimedOutError where
  flag : ECFlag
  on_state : Bool
deriving DecidableEq, Repr

/-- Model of one status-byte probe inside `Flag::wait` (lines 150-156):
the byte read from the command port, paired with the wall-clock
milliseconds elapsed since the call began, as observed right after
that read. -/
structure Probe where
  status : ℕ
  elapsed_ms : ℕ
deriving DecidableEq, Repr

/-- Embedding of `Flag::wait` (lines 139-160) over an explicit finite list
of probes standing for the successive command-port reads and clock
observations.  The loop body: if the flag's predicate on the read status
equals the desired state, return Ok; otherwise, if more than
`COMMAND_FLAG_MAX_WAIT_MS` ms have elapsed, return the timeout error
carrying the flag and desired state; otherwise poll again.  `none` stands
for the loop still spinning when the modelled probe list runs out. -/
def ECFlag.wait (f : ECFlag) (on_state : Bool) : List Probe → Option (Except CommandFlagWaitTimedOutError Unit)
  | [] => none
  | p :: rest =>
    if f.isOn p.status = on_state then some (Except.ok ())
    else if COMMAND_FLAG_MAX_WAIT_MS < p.elapsed_ms then
      some (Except.error ⟨f, on_state⟩)
    else ECFlag.wait f on_state rest

/-- Model of the EC device as seen through the two ports during
`ec_flush`: a list of stale pending output bytes.  Reading the data port
pops the head; the OBF bit of the command-port status byte is set exactly
while bytes are pending, the remaining status bits are an arbitrary fixed
value `other`. -/
def ecStatus (other : ℕ) (pending : List ℕ) : ℕ :=
  2 * other + (if pending.isEmpty then 0 else 1)

/-- Embedding of `ec_flush` (lines 194-210): while the OBF flag is on in
the command-port status, read (pop and discard) a byte from the data
port.  Returns the buffer left when the loop exits.  The empty case is
the loop guard failing at once: `ECFlag.OBF.isOn (ecStatus other []) = false`. -/
def ec_flush (other : ℕ) : List ℕ → List ℕ
  | [] => []
  | b :: rest =>
    if ECFlag.OBF.isOn (ecStatus other (b :: rest)) then ec_flush other rest
    else b :: rest

/-- Fuel-indexed embedding of the `ec_flush` polling loop (lines 206-209)
over an unbounded stream of command-port status reads: `statuses k` is
the k-th status byte the loop would read.  `ec_flushFuel statuses i fuel`
runs the loop from the i-th read with `fuel` iterations allowed and
returns `some k` when the loop exits after its k-th read observed OBF
off, `none` when the fuel ran out with the loop still spinning.  The
loop body has no timeout check and no error outcome. -/
def ec_flushFuel (statuses : ℕ → ℕ) : ℕ → ℕ → Option ℕ
  | _, 0 => none
  | i, fuel + 1 =>
    if ECFlag.OBF.isOn (statuses i) then ec_flushFuel statuses (i + 1) fuel
    else some i

/-- Round-to-nearest, ties-to-even, of the rational `a / b` (`b > 0`) to an
integer: the rounding IEEE-754 binary32 arithmetic applies to a result
significand. -/
def rne (a b : ℕ) : ℕ :=
  let q := a / b
  let r := a % b
  if 2 * r < b then q
  else if b < 2 * r then q + 1
  else if q % 2 = 0 then q else q + 1

/-- Exact emulation of the f32 duty-cycle expression of `set_fan_speed`
(line 189): `((min(speed, 100) as f32 / 100 as f32) * 255 as f32).floor() as u8`.
Both the division and the multiplication round to nearest-even at 24
significand bits; `floor` is exact; the final `as u8` cast saturates at
255 (it never needs to here).  For `p = min speed 100` in `[1, 100]` the
quotient `p / 100` lies in a binade `[2 ^ (-f) , 2 ^ (1-f))` with
`f ∈ [0, 7]`, so its rounded significand is `rne (p * 2 ^ (23 + f)) 100`;
the product with 255 is renormalized to 24 bits the same way. -/
def scale (speed : ℕ) : ℕ :=
  let p := min speed 100
  if p = 0 then 0
  else
    let f := (((List.range 8).find? (fun f => 100 ≤ p * 2 ^ f)).getD 7)
    let m := rne (p * 2 ^ (23 + f)) 100
    let k := if m * 255 < 2 ^ 31 then 30 else 31
    let m2 := rne (m * 255) (2 ^ (k - 23))
    min (m2 / 2 ^ (46 + f - k)) 255

/-- Integer specification of the duty-cycle byte:
`floor (min (p, 100) * 255 / 100)` computed exactly over the integers
(spec section 8, first testable property). -/
def scaleInt (speed : ℕ) : ℕ :=
  min speed 100 * 255 / 100

/-- Byte sequence `set_fan_speed` (lines 185-191) writes, as
(port, value) pairs: the speed command on the command port, then the fan
id and the scaled duty cycle on the data port. -/
def set_fan_speed_bytes (speed : ℕ) : List (ℕ × ℕ) :=
  [(EC_COMMAND_PORT, COMMAND_SPEED), (EC_DATA_PORT, FAN_ID), (EC_DATA_PORT, scale speed)]

/-- Mutable state of the control loop in `run` (lines 266-291):
`fan_speed_last` is the speed when last set, `fan_speed` the current
target, `temp_last` the last loop temperature, and the two loop
counters.  `fan_speed`, `temp_last` are u8, the counters u64 in the
source. -/
structure CState where
  fan_speed_last : ℕ
  fan_speed : ℕ
  temp_last : ℕ
  raising_loops : ℕ
  lowering_or_staying_loops : ℕ
deriving DecidableEq, Repr

/-- Classification test of one sampled temperature (lines 301-310): the
sample is RAISING when `MAX_TEMP < temp`, or `MIN_TEMP < temp` and
`temp_last < temp`; otherwise it is lowering or staying the same. -/
def classify (temp temp_last : ℕ) : Bool :=
  (MAX_TEMP < temp) || ((MIN_TEMP < temp) && (temp_last < temp))

/-- Classification and speed-adjustment phase of one loop iteration
(lines 301-348).  On RAISING: increment `raising_loops` (u64, hence
`% 2 ^ 64`); once it exceeds `reaction_loops_raise`, set
`fan_speed = min (fan_speed + FAN_RAISE_INCREMENT) FAN_SPEED_MAX` (u8
addition, hence `% 2 ^ 8`) and zero both counters.
Otherwise: increment `lowering_or_staying_loops`; once it exceeds
`reaction_loops_lower`, set `fan_speed = max (fan_speed -
FAN_LOWER_INCREMENT) FAN_SPEED_MIN` when `FAN_LOWER_INCREMENT <
fan_speed`, else `FAN_SPEED_MIN`, and zero both counters. -/
def classifyStep (s : CState) (temp : ℕ) : CState :=
  if classify temp s.temp_last then
    let r := (s.raising_loops + 1) % 2 ^ 64
    if reaction_loops_raise < r then
      { s with
        fan_speed := min ((s.fan_speed + FAN_RAISE_INCREMENT) % 2 ^ 8) FAN_SPEED_MAX
        raising_loops := 0
        lowering_or_staying_loops := 0 }
    else { s with raising_loops := r }
  else
    let l := (s.lowering_or_staying_loops + 1) % 2 ^ 64
    if reaction_loops_lower < l then
      { s with
        fan_speed :=
          if FAN_LOWER_INCREMENT < s.fan_speed then
            max (s.fan_speed - FAN_LOWER_INCREMENT) FAN_SPEED_MIN
          else FAN_SPEED_MIN
        raising_loops := 0
        lowering_or_staying_loops := 0 }
    else { s with lowering_or_staying_loops := l }

/-- Commit phase of one loop iteration (lines 351-370): if the target
speed differs from the last applied speed, zero both counters, apply the
speed (`set_fan_speed`), record it as last applied and record this
iteration's temperature as `temp_last`; otherwise leave the state
unchanged. -/
def commitStep (s : CState) (temp : ℕ) : CState :=
  if s.fan_speed ≠ s.fan_speed_last then
    { s with
      raising_loops := 0
      lowering_or_staying_loops := 0
      fan_speed_last := s.fan_speed
      temp_last := temp }
  else s

/-- One full iteration of the control loop body (lines 294-374) on a
sampled temperature. -/
def iter (s : CState) (temp : ℕ) : CState :=
  commitStep (classifyStep s temp) temp

/-- Speed argument of the `set_fan_speed` call of one iteration, when the
iteration commits (lines 351-360): `some` of the new target exactly when
the post-classification target differs from the last applied speed. -/
def iterCall (s : CState) (temp : ℕ) : Option ℕ :=
  let s1 := classifyStep s temp
  if s1.fan_speed ≠ s1.fan_speed_last then some s1.fan_speed else none

/-- Control loop state after consuming a list of sampled temperatures,
one iteration each. -/
def run (s : CState) : List ℕ → CState
  | [] => s
  | t :: ts => run (iter s t) ts

/-- State right before the first loop iteration (lines 266-291):
`fan_speed_last = 0`, `fan_speed = FAN_SPEED_MIN`, `temp_last` the
temperature sampled before the loop, both counters zero. -/
def initState (temp0 : ℕ) : CState :=
  { fan_speed_last := 0
    fan_speed := FAN_SPEED_MIN
    temp_last := temp0
    raising_loops := 0
    lowering_or_staying_loops := 0 }

/-- Speed passed to the single `set_fan_speed` call made before the loop
starts (line 274): the initial `fan_speed`, that is `FAN_SPEED_MIN`. -/
def initialSetSpeedCall : ℕ := FAN_SPEED_MIN

/-- Value of `reaction_loops_raise`: 1000 / 250 = 4. -/
theorem reaction_loops_raise_eq : reaction_loops_raise = 4 := rfl

/-- Value of `reaction_loops_lower`: 2000 / 250 = 8. -/
theorem reaction_loops_lower_eq : reaction_loops_lower = 8 := rfl

/-- The commit phase never changes the target fan speed. -/
theorem commitStep_fan_speed (s : CState) (t : ℕ) :
    (commitStep s t).fan_speed = s.fan_speed := by
  unfold commitStep; split <;> rfl

/-- The classification phase never changes the last applied fan speed. -/
theorem classifyStep_fan_speed_last (s : CState) (t : ℕ) :
    (classifyStep s t).fan_speed_last = s.fan_speed_last := by
  simp only [classifyStep]
  split_ifs <;> rfl

/-- The classification phase never changes the recorded last temperature. -/
theorem classifyStep_temp_last (s : CState) (t : ℕ) :
    (classifyStep s t).temp_last = s.temp_last := by
  simp only [classifyStep]
  split_ifs <;> rfl

/-- Running on an appended temperature list splits into two runs. -/
theorem run_append (l1 l2 : List ℕ) : ∀ s : CState,
    run s (l1 ++ l2) = run (run s l1) l2 := by
  induction l1 with
  | nil => intro s; rfl
  | cons t ts ih => intro s; simp only [List.cons_append, run]; exact ih (iter s t)

/-- The classification phase keeps the target fan speed within
`[FAN_SPEED_MIN, FAN_SPEED_MAX]`. -/
theorem classifyStep_bounds (s : CState) (t : ℕ)
    (h1 : FAN_SPEED_MIN ≤ s.fan_speed) (h2 : s.fan_speed ≤ FAN_SPEED_MAX) :
    FAN_SPEED_MIN ≤ (classifyStep s t).fan_speed ∧
    (classifyStep s t).fan_speed ≤ FAN_SPEED_MAX := by
  simp only [classifyStep, FAN_SPEED_MIN, FAN_SPEED_MAX, FAN_RAISE_INCREMENT,
    FAN_LOWER_INCREMENT] at *
  split_ifs <;> simp <;> omega

/-- Every iteration keeps the target fan speed within
`[FAN_SPEED_MIN, FAN_SPEED_MAX]`. -/
theorem iter_bounds (s : CState) (t : ℕ)
    (h1 : FAN_SPEED_MIN ≤ s.fan_speed) (h2 : s.fan_speed ≤ FAN_SPEED_MAX) :
    FAN_SPEED_MIN ≤ (iter s t).fan_speed ∧ (iter s t).fan_speed ≤ FAN_SPEED_MAX := by
  unfold iter
  rw [commitStep_fan_speed]
  exact classifyStep_bounds s t h1 h2

/-- Any run from a state with target speed in range ends in range. -/
theorem run_bounds (ts : List ℕ) : ∀ s : CState,
    FAN_SPEED_MIN ≤ s.fan_speed → s.fan_speed ≤ FAN_SPEED_MAX →
    FAN_SPEED_MIN ≤ (run s ts).fan_speed ∧ (run s ts).fan_speed ≤ FAN_SPEED_MAX := by
  induction ts with
  | nil => intro s h1 h2; exact ⟨h1, h2⟩
  | cons t ts ih =>
    intro s h1 h2
    have h := iter_bounds s t h1 h2
    exact ih (iter s t) h.1 h.2

/-- C1: for every sequence of sampled temperatures and every number of
control-loop iterations, the target fan speed stays within
`[FAN_SPEED_MIN = 30, FAN_SPEED_MAX = 100]` at all times after
initialization: it starts at `FAN_SPEED_MIN = 30`, raising uses
`min (target + 5) 100`, lowering uses `max (target - 1) 30`. -/
theorem C1_target_speed_in_range (temp0 : ℕ) (ts : List ℕ) :
    (initState temp0).fan_speed = FAN_SPEED_MIN ∧
    FAN_SPEED_MIN ≤ (run (initState temp0) ts).fan_speed ∧
    (run (initState temp0) ts).fan_speed ≤ FAN_SPEED_MAX := by
  refine ⟨rfl, run_bounds ts (initState temp0) ?_ ?_⟩ <;>
    simp [initState, FAN_SPEED_MIN, FAN_SPEED_MAX]

/-- On a RAISING sample with the incremented raising counter still at
most `reaction_loops_raise`, the classification phase only increments the
raising counter. -/
theorem classifyStep_raise_count (s : CState) (t : ℕ)
    (hc : classify t s.temp_last = true)
    (hsmall : s.raising_loops + 1 ≤ reaction_loops_raise) :
    classifyStep s t = { s with raising_loops := s.raising_loops + 1 } := by
  have hmod : (s.raising_loops + 1) % 2 ^ 64 = s.raising_loops + 1 :=
    Nat.mod_eq_of_lt (lt_of_le_of_lt hsmall (by rw [reaction_loops_raise_eq]; norm_num))
  rw [classifyStep, if_pos hc, hmod, if_neg (by omega)]

/-- On a RAISING sample with the incremented raising counter past
`reaction_loops_raise`, the classification phase raises the target by
`FAN_RAISE_INCREMENT` (u8 addition, clipped at `FAN_SPEED_MAX`) and
zeroes both counters. -/
theorem classifyStep_raise_commit (s : CState) (t : ℕ)
    (hc : classify t s.temp_last = true)
    (hbig : reaction_loops_raise < s.raising_loops + 1)
    (hsmall : s.raising_loops + 1 < 2 ^ 64) :
    classifyStep s t =
      { s with
        fan_speed := min ((s.fan_speed + FAN_RAISE_INCREMENT) % 2 ^ 8) FAN_SPEED_MAX
        raising_loops := 0
        lowering_or_staying_loops := 0 } := by
  have hmod : (s.raising_loops + 1) % 2 ^ 64 = s.raising_loops + 1 :=
    Nat.mod_eq_of_lt hsmall
  rw [classifyStep, if_pos hc, hmod, if_pos hbig]

/-- On a lowering-or-steady sample with the incremented lowering counter
still at most `reaction_loops_lower`, the classification phase only
increments the lowering counter. -/
theorem classifyStep_lower_count (s : CState) (t : ℕ)
    (hc : classify t s.temp_last = false)
    (hsmall : s.lowering_or_staying_loops + 1 ≤ reaction_loops_lower) :
    classifyStep s t =
      { s with lowering_or_staying_loops := s.lowering_or_staying_loops + 1 } := by
  have hmod : (s.lowering_or_staying_loops + 1) % 2 ^ 64 = s.lowering_or_staying_loops + 1 :=
    Nat.mod_eq_of_lt (lt_of_le_of_lt hsmall (by rw [reaction_loops_lower_eq]; norm_num))
  rw [classifyStep, if_neg (by simp [hc]), hmod, if_neg (by omega)]

/-- On a lowering-or-steady sample with the incremented lowering counter
past `reaction_loops_lower`, the classification phase lowers the target
by `FAN_LOWER_INCREMENT` clamped below at `FAN_SPEED_MIN` (with the
source's guard against u8 underflow) and zeroes both counters. -/
theorem classifyStep_lower_commit (s : CState) (t : ℕ)
    (hc : classify t s.temp_last = false)
    (hbig : reaction_loops_lower < s.lowering_or_staying_loops + 1)
    (hsmall : s.lowering_or_staying_loops + 1 < 2 ^ 64) :
    classifyStep s t =
      { s with
        fan_speed :=
          if FAN_LOWER_INCREMENT < s.fan_speed then
            max (s.fan_speed - FAN_LOWER_INCREMENT) FAN_SPEED_MIN
          else FAN_SPEED_MIN
        raising_loops := 0
        lowering_or_staying_loops := 0 } := by
  have hmod : (s.lowering_or_staying_loops + 1) % 2 ^ 64 = s.lowering_or_staying_loops + 1 :=
    Nat.mod_eq_of_lt hsmall
  rw [classifyStep, if_neg (by simp [hc]), hmod, if_pos hbig]

/-- When the target equals the last applied speed, the commit phase does
nothing. -/
theorem commitStep_noop (s : CState) (t : ℕ) (h : s.fan_speed = s.fan_speed_last) :
    commitStep s t = s := by
  rw [commitStep, if_neg (by omega)]

/-- When the target differs from the last applied speed, the commit phase
zeroes both counters, records the speed as last applied and records the
iteration's temperature. -/
theorem commitStep_commits (s : CState) (t : ℕ) (h : s.fan_speed ≠ s.fan_speed_last) :
    commitStep s t =
      { s with
        raising_loops := 0
        lowering_or_staying_loops := 0
        fan_speed_last := s.fan_speed
        temp_last := t } := by
  rw [commitStep, if_pos h]

/-- A temperature above `MAX_TEMP` is always classified RAISING. -/
theorem classify_of_gt_max (t tl : ℕ) (h : MAX_TEMP < t) : classify t tl = true := by
  simp [classify, h]

/-- While samples are classified RAISING, the state is steady
(`fan_speed = fan_speed_last`, so no commit fires) and the raising
counter stays at most `reaction_loops_raise`, each iteration only
increments the raising counter. -/
theorem run_raising_steady (t tl : ℕ) (hc : classify t tl = true) :
    ∀ n rl ll fs, rl + n ≤ reaction_loops_raise →
    run ⟨fs, fs, tl, rl, ll⟩ (List.replicate n t) = ⟨fs, fs, tl, rl + n, ll⟩ := by
  intro n
  induction n with
  | zero => intro rl ll fs _; simp [run]
  | succ n ih =>
    intro rl ll fs h
    rw [reaction_loops_raise_eq] at h
    have hcnt : rl + 1 ≤ reaction_loops_raise := by rw [reaction_loops_raise_eq]; omega
    have h1 : iter ⟨fs, fs, tl, rl, ll⟩ t = ⟨fs, fs, tl, rl + 1, ll⟩ := by
      rw [iter, classifyStep_raise_count _ _ hc hcnt, commitStep_noop _ _ rfl]
    have h2 := ih (rl + 1) ll fs (by rw [reaction_loops_raise_eq]; omega)
    have h3 : rl + 1 + n = rl + (n + 1) := by omega
    rw [h3] at h2
    simp only [List.replicate_succ, run, h1, h2]

/-- While samples are classified lowering-or-steady, the state is steady
(`fan_speed = fan_speed_last`, so no commit fires) and the lowering
counter stays at most `reaction_loops_lower`, each iteration only
increments the lowering counter. -/
theorem run_lowering_steady (t tl : ℕ) (hc : classify t tl = false) :
    ∀ n rl ll fs, ll + n ≤ reaction_loops_lower →
    run ⟨fs, fs, tl, rl, ll⟩ (List.replicate n t) = ⟨fs, fs, tl, rl, ll + n⟩ := by
  intro n
  induction n with
  | zero => intro rl ll fs _; simp [run]
  | succ n ih =>
    intro rl ll fs h
    rw [reaction_loops_lower_eq] at h
    have hcnt : ll + 1 ≤ reaction_loops_lower := by rw [reaction_loops_lower_eq]; omega
    have h1 : iter ⟨fs, fs, tl, rl, ll⟩ t = ⟨fs, fs, tl, rl, ll + 1⟩ := by
      rw [iter, classifyStep_lower_count _ _ hc hcnt, commitStep_noop _ _ rfl]
    have h2 := ih rl (ll + 1) fs (by rw [reaction_loops_lower_eq]; omega)
    have h3 : ll + 1 + n = ll + (n + 1) := by omega
    rw [h3] at h2
    simp only [List.replicate_succ, run, h1, h2]

/-- C2: from a steady state with both counters zero, a constant
temperature above `MAX_TEMP = 85` leaves the target unchanged on
iterations 1 through 4 (the raising counter has not yet exceeded
`reaction_loops_raise = REACTION_TIME_MS_RAISE / REFRESH_RATE = 4`) and
increases it by exactly `FAN_RAISE_INCREMENT = 5` on the 5th iteration,
given the headroom `target + 5 ≤ FAN_SPEED_MAX` that the source's
`min (target + 5) FAN_SPEED_MAX` otherwise clips. -/
theorem C2_raises_by_five_on_fifth (s : CState) (t : ℕ)
    (htemp : MAX_TEMP < t)
    (hr : s.raising_loops = 0)
    (hl : s.lowering_or_staying_loops = 0)
    (hsteady : s.fan_speed = s.fan_speed_last)
    (hroom : s.fan_speed + FAN_RAISE_INCREMENT ≤ FAN_SPEED_MAX) :
    (run s (List.replicate 1 t)).fan_speed = s.fan_speed ∧
    (run s (List.replicate 2 t)).fan_speed = s.fan_speed ∧
    (run s (List.replicate 3 t)).fan_speed = s.fan_speed ∧
    (run s (List.replicate 4 t)).fan_speed = s.fan_speed ∧
    (run s (List.replicate 5 t)).fan_speed = s.fan_speed + FAN_RAISE_INCREMENT := by
  obtain ⟨fsl, fs, tl, rl, ll⟩ := s
  dsimp only at hr hl hsteady hroom ⊢
  subst hr
  subst hl
  subst hsteady
  rw [FAN_RAISE_INCREMENT, FAN_SPEED_MAX] at hroom
  have hc := classify_of_gt_max t tl htemp
  have hsteps : ∀ i : ℕ, i ≤ 4 →
      run ⟨fs, fs, tl, 0, 0⟩ (List.replicate i t) = ⟨fs, fs, tl, i, 0⟩ := by
    intro i hi
    have hle : 0 + i ≤ reaction_loops_raise := by rw [reaction_loops_raise_eq]; omega
    have h := run_raising_steady t tl hc i 0 0 fs hle
    simpa using h
  have hcnt5 : reaction_loops_raise < 4 + 1 := by rw [reaction_loops_raise_eq]; omega
  have hcs : classifyStep ⟨fs, fs, tl, 4, 0⟩ t = ⟨fs, fs + 5, tl, 0, 0⟩ := by
    rw [classifyStep_raise_commit _ _ hc hcnt5 (by norm_num)]
    have hmin : min ((fs + FAN_RAISE_INCREMENT) % 2 ^ 8) FAN_SPEED_MAX = fs + 5 := by
      rw [FAN_RAISE_INCREMENT, FAN_SPEED_MAX]; omega
    rw [hmin]
  have hcm : commitStep ⟨fs, fs + 5, tl, 0, 0⟩ t = ⟨fs + 5, fs + 5, t, 0, 0⟩ :=
    commitStep_commits _ _ (by show fs + 5 ≠ fs; omega)
  have h5 : run ⟨fs, fs, tl, 0, 0⟩ (List.replicate 5 t) = ⟨fs + 5, fs + 5, t, 0, 0⟩ := by
    rw [show (5 : ℕ) = 4 + 1 from rfl, List.replicate_succ', run_append,
      hsteps 4 (by omega)]
    simp only [run, iter, hcs, hcm]
  refine ⟨?_, ?_, ?_, ?_, ?_⟩
  · rw [hsteps 1 (by omega)]
  · rw [hsteps 2 (by omega)]
  · rw [hsteps 3 (by omega)]
  · rw [hsteps 4 (by omega)]
  · rw [h5, FAN_RAISE_INCREMENT]

/-- Witness for C2: starting steady at 30 with zero counters, a constant
temperature 90 leaves the target at 30 for four iterations and moves it
to 35 on the fifth. -/
theorem C2_raises_by_five_on_fifth_witness :
    (MAX_TEMP < 90 ∧
     (⟨30, 30, 50, 0, 0⟩ : CState).raising_loops = 0 ∧
     (⟨30, 30, 50, 0, 0⟩ : CState).lowering_or_staying_loops = 0 ∧
     (⟨30, 30, 50, 0, 0⟩ : CState).fan_speed = (⟨30, 30, 50, 0, 0⟩ : CState).fan_speed_last ∧
     (⟨30, 30, 50, 0, 0⟩ : CState).fan_speed + FAN_RAISE_INCREMENT ≤ FAN_SPEED_MAX) ∧
    ((run ⟨30, 30, 50, 0, 0⟩ (List.replicate 1 90)).fan_speed = 30 ∧
     (run ⟨30, 30, 50, 0, 0⟩ (List.replicate 2 90)).fan_speed = 30 ∧
     (run ⟨30, 30, 50, 0, 0⟩ (List.replicate 3 90)).fan_speed = 30 ∧
     (run ⟨30, 30, 50, 0, 0⟩ (List.replicate 4 90)).fan_speed = 30 ∧
     (run ⟨30, 30, 50, 0, 0⟩ (List.replicate 5 90)).fan_speed = 35) :=
  ⟨⟨by decide, rfl, rfl, rfl, by decide⟩,
   C2_raises_by_five_on_fifth ⟨30, 30, 50, 0, 0⟩ 90 (by decide) rfl rfl rfl (by decide)⟩

/-- C3: from a steady state with both counters zero, any nine-sample
temperature sequence (constant or decreasing) in which every sample is
classified lowering-or-steady against the stored previous temperature
leaves the target unchanged on iterations 1 through 8 (the lowering
counter has not yet exceeded
`reaction_loops_lower = REACTION_TIME_MS_LOWER / REFRESH_RATE = 8`); on
the 9th iteration the new target is
`max (target - FAN_LOWER_INCREMENT) FAN_SPEED_MIN` when
`FAN_LOWER_INCREMENT < target` and `FAN_SPEED_MIN` otherwise, hence a
decrease of exactly 1 clamped below at `FAN_SPEED_MIN = 30`, and the
target never drops below `FAN_SPEED_MIN`. -/
theorem C3_lowers_by_one_on_ninth (s : CState) (t1 t2 t3 t4 t5 t6 t7 t8 t9 : ℕ)
    (hc1 : classify t1 s.temp_last = false)
    (hc2 : classify t2 s.temp_last = false)
    (hc3 : classify t3 s.temp_last = false)
    (hc4 : classify t4 s.temp_last = false)
    (hc5 : classify t5 s.temp_last = false)
    (hc6 : classify t6 s.temp_last = false)
    (hc7 : classify t7 s.temp_last = false)
    (hc8 : classify t8 s.temp_last = false)
    (hc9 : classify t9 s.temp_last = false)
    (hr : s.raising_loops = 0)
    (hl : s.lowering_or_staying_loops = 0)
    (hsteady : s.fan_speed = s.fan_speed_last) :
    (run s [t1]).fan_speed = s.fan_speed ∧
    (run s [t1, t2]).fan_speed = s.fan_speed ∧
    (run s [t1, t2, t3]).fan_speed = s.fan_speed ∧
    (run s [t1, t2, t3, t4]).fan_speed = s.fan_speed ∧
    (run s [t1, t2, t3, t4, t5]).fan_speed = s.fan_speed ∧
    (run s [t1, t2, t3, t4, t5, t6]).fan_speed = s.fan_speed ∧
    (run s [t1, t2, t3, t4, t5, t6, t7]).fan_speed = s.fan_speed ∧
    (run s [t1, t2, t3, t4, t5, t6, t7, t8]).fan_speed = s.fan_speed ∧
    (run s [t1, t2, t3, t4, t5, t6, t7, t8, t9]).fan_speed =
      (if FAN_LOWER_INCREMENT < s.fan_speed then
        max (s.fan_speed - FAN_LOWER_INCREMENT) FAN_SPEED_MIN
      else FAN_SPEED_MIN) ∧
    FAN_SPEED_MIN ≤ (run s [t1, t2, t3, t4, t5, t6, t7, t8, t9]).fan_speed := by
  obtain ⟨fsl, fs, tl, rl, ll⟩ := s
  dsimp only at hc1 hc2 hc3 hc4 hc5 hc6 hc7 hc8 hc9 hr hl hsteady ⊢
  subst hr
  subst hl
  subst hsteady
  have hstep : ∀ (t k : ℕ), classify t tl = false → k + 1 ≤ 8 →
      iter ⟨fs, fs, tl, 0, k⟩ t = ⟨fs, fs, tl, 0, k + 1⟩ := by
    intro t k hct hk
    have hcnt : k + 1 ≤ reaction_loops_lower := by rw [reaction_loops_lower_eq]; omega
    rw [iter, classifyStep_lower_count _ _ hct hcnt, commitStep_noop _ _ rfl]
  have e1 := hstep t1 0 hc1 (by omega)
  have e2 := hstep t2 1 hc2 (by omega)
  have e3 := hstep t3 2 hc3 (by omega)
  have e4 := hstep t4 3 hc4 (by omega)
  have e5 := hstep t5 4 hc5 (by omega)
  have e6 := hstep t6 5 hc6 (by omega)
  have e7 := hstep t7 6 hc7 (by omega)
  have e8 := hstep t8 7 hc8 (by omega)
  have hcnt9 : reaction_loops_lower < 8 + 1 := by rw [reaction_loops_lower_eq]; omega
  have hcs : classifyStep ⟨fs, fs, tl, 0, 8⟩ t9 =
      ⟨fs,
       (if FAN_LOWER_INCREMENT < fs then
          max (fs - FAN_LOWER_INCREMENT) FAN_SPEED_MIN
        else FAN_SPEED_MIN),
       tl, 0, 0⟩ := by
    rw [classifyStep_lower_commit _ _ hc9 hcnt9 (by norm_num)]
  have hL : run ⟨fs, fs, tl, 0, 0⟩ [t1, t2, t3, t4, t5, t6, t7, t8, t9] =
      iter ⟨fs, fs, tl, 0, 8⟩ t9 := by
    simp only [run, e1, e2, e3, e4, e5, e6, e7, e8]
  have h9 : (run ⟨fs, fs, tl, 0, 0⟩ [t1, t2, t3, t4, t5, t6, t7, t8, t9]).fan_speed =
      (if FAN_LOWER_INCREMENT < fs then
        max (fs - FAN_LOWER_INCREMENT) FAN_SPEED_MIN
      else FAN_SPEED_MIN) := by
    rw [hL, iter, commitStep_fan_speed, hcs]
  refine ⟨?_, ?_, ?_, ?_, ?_, ?_, ?_, ?_, h9, ?_⟩
  · simp only [run, e1]
  · simp only [run, e1, e2]
  · simp only [run, e1, e2, e3]
  · simp only [run, e1, e2, e3, e4]
  · simp only [run, e1, e2, e3, e4, e5]
  · simp only [run, e1, e2, e3, e4, e5, e6]
  · simp only [run, e1, e2, e3, e4, e5, e6, e7]
  · simp only [run, e1, e2, e3, e4, e5, e6, e7, e8]
  · rw [h9]
    split_ifs
    · exact le_max_right _ _
    · exact le_refl _

/-- Witness for C3: starting steady at 40 with zero counters and a
recorded last temperature of 90, the strictly decreasing sample sequence
80, 79, 78, 77, 76, 75, 74, 73, 72 is classified lowering-or-steady
throughout, leaves the target at 40 for eight iterations and moves it to
39 on the ninth, staying at or above 30. -/
theorem C3_lowers_by_one_on_ninth_witness :
    (classify 80 (⟨40, 40, 90, 0, 0⟩ : CState).temp_last = false ∧
     classify 79 (⟨40, 40, 90, 0, 0⟩ : CState).temp_last = false ∧
     classify 78 (⟨40, 40, 90, 0, 0⟩ : CState).temp_last = false ∧
     classify 77 (⟨40, 40, 90, 0, 0⟩ : CState).temp_last = false ∧
     classify 76 (⟨40, 40, 90, 0, 0⟩ : CState).temp_last = false ∧
     classify 75 (⟨40, 40, 90, 0, 0⟩ : CState).temp_last = false ∧
     classify 74 (⟨40, 40, 90, 0, 0⟩ : CState).temp_last = false ∧
     classify 73 (⟨40, 40, 90, 0, 0⟩ : CState).temp_last = false ∧
     classify 72 (⟨40, 40, 90, 0, 0⟩ : CState).temp_last = false ∧
     (⟨40, 40, 90, 0, 0⟩ : CState).raising_loops = 0 ∧
     (⟨40, 40, 90, 0, 0⟩ : CState).lowering_or_staying_loops = 0 ∧
     (⟨40, 40, 90, 0, 0⟩ : CState).fan_speed = (⟨40, 40, 90, 0, 0⟩ : CState).fan_speed_last) ∧
    ((run ⟨40, 40, 90, 0, 0⟩ [80]).fan_speed = 40 ∧
     (run ⟨40, 40, 90, 0, 0⟩ [80, 79]).fan_speed = 40 ∧
     (run ⟨40, 40, 90, 0, 0⟩ [80, 79, 78]).fan_speed = 40 ∧
     (run ⟨40, 40, 90, 0, 0⟩ [80, 79, 78, 77]).fan_speed = 40 ∧
     (run ⟨40, 40, 90, 0, 0⟩ [80, 79, 78, 77, 76]).fan_speed = 40 ∧
     (run ⟨40, 40, 90, 0, 0⟩ [80, 79, 78, 77, 76, 75]).fan_speed = 40 ∧
     (run ⟨40, 40, 90, 0, 0⟩ [80, 79, 78, 77, 76, 75, 74]).fan_speed = 40 ∧
     (run ⟨40, 40, 90, 0, 0⟩ [80, 79, 78, 77, 76, 75, 74, 73]).fan_speed = 40 ∧
     (run ⟨40, 40, 90, 0, 0⟩ [80, 79, 78, 77, 76, 75, 74, 73, 72]).fan_speed = 39 ∧
     FAN_SPEED_MIN ≤ (run ⟨40, 40, 90, 0, 0⟩ [80, 79, 78, 77, 76, 75, 74, 73, 72]).fan_speed) :=
  ⟨⟨by decide, by decide, by decide, by decide, by decide, by decide, by decide,
    by decide, by decide, rfl, rfl, rfl⟩,
   C3_lowers_by_one_on_ninth ⟨40, 40, 90, 0, 0⟩ 80 79 78 77 76 75 74 73 72
     (by decide) (by decide) (by decide) (by decide) (by decide) (by decide)
     (by decide) (by decide) (by decide) rfl rfl rfl⟩

set_option maxRecDepth 100000 in
/-- C4: for every u8 percent, the duty-cycle byte written as the third
byte of the `set_fan_speed` sequence (the exact emulation of the source's
f32 expression) equals `min (p, 100) * 255 / 100` computed over the
integers; in particular the byte for 150 equals the byte for 100, namely
255. -/
theorem C4_duty_cycle_byte :
    (∀ p : Fin 256,
      ((set_fan_speed_bytes p.val).getD 2 (0, 0)).2 = scaleInt p.val) ∧
    scale 150 = scale 100 ∧ scale 100 = 255 := by
  refine ⟨?_, by decide, by decide⟩
  decide

/-- C5: a sample is classified RAISING exactly when the temperature is
above `MAX_TEMP = 85`, or above `MIN_TEMP = 70` and above the stored
previous temperature; and the stored previous temperature is updated by
an iteration only when the iteration commits a speed change (the
post-classification target differs from the last applied speed),
otherwise it keeps the value recorded at the last committed change. -/
theorem C5_classification_and_temp_last (t tl : ℕ) (s : CState) :
    (classify t tl = true ↔ (MAX_TEMP < t ∨ (MIN_TEMP < t ∧ tl < t))) ∧
    (classifyStep s t).temp_last = s.temp_last ∧
    ((iter s t).temp_last =
      if (classifyStep s t).fan_speed = s.fan_speed_last then s.temp_last else t) := by
  refine ⟨by simp [classify], classifyStep_temp_last s t, ?_⟩
  rw [iter]
  by_cases h : (classifyStep s t).fan_speed = s.fan_speed_last
  · have hnc : (classifyStep s t).fan_speed = (classifyStep s t).fan_speed_last := by
      rw [classifyStep_fan_speed_last]; exact h
    rw [if_pos h, commitStep_noop _ _ hnc, classifyStep_temp_last]
  · have hnc : (classifyStep s t).fan_speed ≠ (classifyStep s t).fan_speed_last := by
      rw [classifyStep_fan_speed_last]; exact h
    rw [if_neg h, commitStep_commits _ _ hnc]

/-- C6: whenever an iteration commits a speed change (the
post-classification target differs from the last applied speed, so
`set_fan_speed` is called with the new target), afterwards both counters
are zero, the last applied speed equals the new target, and the stored
previous temperature is this iteration's sample. -/
theorem C6_commit_zeroes_counters (s : CState) (t : ℕ)
    (h : (classifyStep s t).fan_speed ≠ s.fan_speed_last) :
    (iter s t).raising_loops = 0 ∧
    (iter s t).lowering_or_staying_loops = 0 ∧
    (iter s t).fan_speed_last = (iter s t).fan_speed ∧
    (iter s t).temp_last = t ∧
    iterCall s t = some ((iter s t).fan_speed) := by
  have hnc : (classifyStep s t).fan_speed ≠ (classifyStep s t).fan_speed_last := by
    rw [classifyStep_fan_speed_last]; exact h
  rw [iter, commitStep_commits _ _ hnc]
  refine ⟨rfl, rfl, rfl, rfl, ?_⟩
  simp only [iterCall]
  rw [if_pos hnc]

/-- Witness for C6: from last applied speed 0 and target 30, the
iteration on sample 40 commits, zeroes the counters and records the
sample. -/
theorem C6_commit_zeroes_counters_witness :
    ((classifyStep ⟨0, 30, 50, 0, 0⟩ 40).fan_speed ≠ (⟨0, 30, 50, 0, 0⟩ : CState).fan_speed_last) ∧
    ((iter ⟨0, 30, 50, 0, 0⟩ 40).raising_loops = 0 ∧
     (iter ⟨0, 30, 50, 0, 0⟩ 40).lowering_or_staying_loops = 0 ∧
     (iter ⟨0, 30, 50, 0, 0⟩ 40).fan_speed_last = (iter ⟨0, 30, 50, 0, 0⟩ 40).fan_speed ∧
     (iter ⟨0, 30, 50, 0, 0⟩ 40).temp_last = 40 ∧
     iterCall ⟨0, 30, 50, 0, 0⟩ 40 = some ((iter ⟨0, 30, 50, 0, 0⟩ 40).fan_speed)) :=
  ⟨by decide, C6_commit_zeroes_counters ⟨0, 30, 50, 0, 0⟩ 40 (by decide)⟩

/-- C9: the last applied speed starts at 0, outside
`[FAN_SPEED_MIN, FAN_SPEED_MAX]`, while `set_fan_speed FAN_SPEED_MIN` is
already called once before the loop; hence on the first iteration the
target (30) differs from the last applied speed (0) and the controller
commits unconditionally, for every pre-loop temperature and every first
in-loop sample: `set_fan_speed 30` is called a second time, both
counters are zeroed (discarding that iteration's classification count),
and the stored previous temperature becomes the first in-loop sample. -/
theorem C9_first_iteration_always_commits (temp0 t1 : ℕ) :
    (initState temp0).fan_speed_last = 0 ∧
    ¬ (FAN_SPEED_MIN ≤ (initState temp0).fan_speed_last) ∧
    initialSetSpeedCall = FAN_SPEED_MIN ∧
    iterCall (initState temp0) t1 = some FAN_SPEED_MIN ∧
    (iter (initState temp0) t1).fan_speed = FAN_SPEED_MIN ∧
    (iter (initState temp0) t1).fan_speed_last = FAN_SPEED_MIN ∧
    (iter (initState temp0) t1).raising_loops = 0 ∧
    (iter (initState temp0) t1).lowering_or_staying_loops = 0 ∧
    (iter (initState temp0) t1).temp_last = t1 := by
  have hs1fs : (classifyStep (initState temp0) t1).fan_speed = FAN_SPEED_MIN := by
    by_cases hc : classify t1 temp0
    · rw [classifyStep_raise_count (initState temp0) t1 hc
        (by show (0 : ℕ) + 1 ≤ reaction_loops_raise; rw [reaction_loops_raise_eq]; norm_num)]
      rfl
    · rw [classifyStep_lower_count (initState temp0) t1 (by simpa using hc)
        (by show (0 : ℕ) + 1 ≤ reaction_loops_lower; rw [reaction_loops_lower_eq]; norm_num)]
      rfl
  have hs1fsl : (classifyStep (initState temp0) t1).fan_speed_last = 0 := by
    rw [classifyStep_fan_speed_last]
    rfl
  have hnc : (classifyStep (initState temp0) t1).fan_speed ≠
      (classifyStep (initState temp0) t1).fan_speed_last := by
    rw [hs1fs, hs1fsl]
    norm_num [FAN_SPEED_MIN]
  have hit : iter (initState temp0) t1 =
      { classifyStep (initState temp0) t1 with
        raising_loops := 0
        lowering_or_staying_loops := 0
        fan_speed_last := (classifyStep (initState temp0) t1).fan_speed
        temp_last := t1 } := by
    rw [iter, commitStep_commits _ _ hnc]
  refine ⟨rfl, by simp [initState, FAN_SPEED_MIN], rfl, ?_, ?_, ?_, ?_, ?_, ?_⟩
  · simp only [iterCall]
    rw [if_pos hnc, hs1fs]
  · rw [hit]; exact hs1fs
  · rw [hit]; exact hs1fs
  · rw [hit]
  · rw [hit]
  · rw [hit]

/-- When every probe in the list fails the flag predicate and some probe
is past the 1000 ms budget, the wait loop returns the timeout error
carrying the flag and the desired state. -/
theorem wait_timeout_of_never (f : ECFlag) (b : Bool) :
    ∀ l : List Probe, (∀ q ∈ l, f.isOn q.status ≠ b) →
    (∃ q ∈ l, COMMAND_FLAG_MAX_WAIT_MS < q.elapsed_ms) →
    ECFlag.wait f b l = some (Except.error ⟨f, b⟩) := by
  intro l
  induction l with
  | nil =>
    intro _ hsome
    obtain ⟨q, hq, _⟩ := hsome
    exact absurd hq (List.not_mem_nil q)
  | cons q l ih =>
    intro hall hsome
    have hq : f.isOn q.status ≠ b := hall q (List.mem_cons_self q l)
    simp only [ECFlag.wait]
    rw [if_neg hq]
    by_cases ht : COMMAND_FLAG_MAX_WAIT_MS < q.elapsed_ms
    · rw [if_pos ht]
    · rw [if_neg ht]
      refine ih (fun r hr => hall r (List.mem_cons_of_mem q hr)) ?_
      obtain ⟨r, hr, hrt⟩ := hsome
      rcases List.mem_cons.mp hr with h1 | h2
      · subst h1; exact absurd hrt ht
      · exact ⟨r, h2, hrt⟩

/-- C7: when the first status probe already satisfies the flag predicate
at the desired state, the wait returns Ok at once, whatever reads would
follow; when no probe ever satisfies it and some probe is past the
1000 ms budget since the call began, the wait fails with the timeout
error carrying exactly that flag and the requested desired state. -/
theorem C7_wait_behaviour (f : ECFlag) (b : Bool) (p : Probe) (rest l : List Probe)
    (hfirst : f.isOn p.status = b)
    (hall : ∀ q ∈ l, f.isOn q.status ≠ b)
    (hsome : ∃ q ∈ l, COMMAND_FLAG_MAX_WAIT_MS < q.elapsed_ms) :
    ECFlag.wait f b (p :: rest) = some (Except.ok ()) ∧
    ECFlag.wait f b l = some (Except.error ⟨f, b⟩) := by
  constructor
  · simp only [ECFlag.wait]
    rw [if_pos hfirst]
  · exact wait_timeout_of_never f b l hall hsome

/-- Witness for C7: waiting for OBF on, a first probe with status 1
returns Ok immediately; probes that never show the bit, the second past
the budget, produce the timeout error for OBF and on. -/
theorem C7_wait_behaviour_witness :
    (ECFlag.OBF.isOn (Probe.mk 1 0).status = true ∧
     (∀ q ∈ [Probe.mk 0 500, Probe.mk 0 1200], ECFlag.OBF.isOn q.status ≠ true) ∧
     (∃ q ∈ [Probe.mk 0 500, Probe.mk 0 1200], COMMAND_FLAG_MAX_WAIT_MS < q.elapsed_ms)) ∧
    (ECFlag.wait ECFlag.OBF true [Probe.mk 1 0, Probe.mk 0 0] = some (Except.ok ()) ∧
     ECFlag.wait ECFlag.OBF true [Probe.mk 0 500, Probe.mk 0 1200] =
       some (Except.error ⟨ECFlag.OBF, true⟩)) :=
  ⟨⟨by decide, by decide, by decide⟩,
   C7_wait_behaviour ECFlag.OBF true (Probe.mk 1 0) [Probe.mk 0 0]
     [Probe.mk 0 500, Probe.mk 0 1200] (by decide) (by decide) (by decide)⟩

/-- The OBF bit of the modelled status byte is set exactly while bytes
are pending. -/
theorem ecStatus_obf (other : ℕ) (pending : List ℕ) :
    ECFlag.OBF.isOn (ecStatus other pending) = !pending.isEmpty := by
  cases pending <;> simp [ECFlag.isOn, ECFlag.flag, ecStatus, Nat.and_one_is_mod] <;> omega

/-- C8: whatever the number of stale pending bytes, `ec_flush` drains
them all, and after it returns the OBF bit read from the command port is
off. -/
theorem C8_flush_drains (other : ℕ) (pending : List ℕ) :
    ec_flush other pending = [] ∧
    ECFlag.OBF.isOn (ecStatus other (ec_flush other pending)) = false := by
  have h : ec_flush other pending = [] := by
    induction pending with
    | nil => rfl
    | cons b rest ih =>
      have hon : ECFlag.OBF.isOn (ecStatus other (b :: rest)) = true := by
        rw [ecStatus_obf]; simp
      simp only [ec_flush]
      rw [if_pos hon]
      exact ih
  refine ⟨h, ?_⟩
  rw [h, ecStatus_obf]
  rfl

/-- A run of the flush polling loop that exits did so on a status read
with OBF off. -/
theorem ec_flushFuel_some_off (statuses : ℕ → ℕ) :
    ∀ fuel i k, ec_flushFuel statuses i fuel = some k →
    ECFlag.OBF.isOn (statuses k) = false := by
  intro fuel
  induction fuel with
  | zero => intro i k h; exact absurd h (by simp [ec_flushFuel])
  | succ fuel ih =>
    intro i k h
    cases hb : ECFlag.OBF.isOn (statuses i) with
    | true =>
      simp only [ec_flushFuel] at h
      rw [if_pos hb] at h
      exact ih (i + 1) k h
    | false =>
      simp only [ec_flushFuel] at h
      rw [if_neg (by simp [hb])] at h
      obtain rfl : i = k := Option.some.inj h
      exact hb

/-- If some status read from position `i + n` onward shows OBF off, the
flush polling loop started at `i` exits within `n + 1` reads. -/
theorem ec_flushFuel_terminates (statuses : ℕ → ℕ) :
    ∀ n i, ECFlag.OBF.isOn (statuses (i + n)) = false →
    ∃ k, ec_flushFuel statuses i (n + 1) = some k := by
  intro n
  induction n with
  | zero =>
    intro i h
    rw [Nat.add_zero] at h
    refine ⟨i, ?_⟩
    simp only [ec_flushFuel]
    rw [if_neg (by simp [h])]
  | succ n ih =>
    intro i h
    cases hb : ECFlag.OBF.isOn (statuses i) with
    | true =>
      have h2 : ECFlag.OBF.isOn (statuses (i + 1 + n)) = false := by
        rw [show i + 1 + n = i + (n + 1) by omega]
        exact h
      obtain ⟨k, hk⟩ := ih (i + 1) h2
      refine ⟨k, ?_⟩
      simp only [ec_flushFuel]
      rw [if_pos hb]
      exact hk
    | false =>
      refine ⟨i, ?_⟩
      simp only [ec_flushFuel]
      rw [if_neg (by simp [hb])]

/-- C10: the flush polling loop, which has no timeout check and no error
outcome, exits for some amount of fuel exactly when some status read
shows OBF off; against a status source that reads OBF on forever it
spins for ever (returns `none` for every fuel, from every position). -/
theorem C10_flush_unbounded_poll (statuses : ℕ → ℕ) :
    ((∃ fuel k, ec_flushFuel statuses 0 fuel = some k) ↔
      (∃ k, ECFlag.OBF.isOn (statuses k) = false)) ∧
    ((∀ k, ECFlag.OBF.isOn (statuses k) = true) →
      ∀ fuel i, ec_flushFuel statuses i fuel = none) := by
  constructor
  · constructor
    · rintro ⟨fuel, k, hk⟩
      exact ⟨k, ec_flushFuel_some_off statuses fuel 0 k hk⟩
    · rintro ⟨k, hk⟩
      obtain ⟨j, hj⟩ := ec_flushFuel_terminates statuses k 0 (by simpa using hk)
      exact ⟨k + 1, j, hj⟩
  · intro hall fuel
    induction fuel with
    | zero => intro i; rfl
    | succ fuel ih =>
      intro i
      simp only [ec_flushFuel]
      rw [if_pos (hall i)]
      exact ih (i + 1)

/-- Witness for C10: against the constant status source 1 (OBF always
on), the flush loop returns `none` with fuel 9 from position 5. -/
theorem C10_flush_unbounded_poll_witness :
    (∀ k : ℕ, ECFlag.OBF.isOn ((fun _ : ℕ => 1) k) = true) ∧
    ec_flushFuel (fun _ : ℕ => 1) 5 9 = none :=
  ⟨fun k => by show ECFlag.OBF.isOn 1 = true; decide,
   (C10_flush_unbounded_poll (fun _ : ℕ => 1)).2
     (fun k => by show ECFlag.OBF.isOn 1 = true; decide) 9 5⟩
